import Mathlib

/-!
# Verification development for the `synthesis` emulation layer

Two translation units are embedded:

* `FakeFPGA/ChipObject/tInterruptManager.cpp` : the interrupt manager of the
  fake FPGA, with its process-wide interrupt reservation mask;
* `emulation/hel/include/receive_data.hpp` : the telemetry snapshot
  `ReceiveData` and its registry `ReceiveDataManager`.

Machine integers are natural numbers reduced modulo `2 ^ 32` wherever a
C++ operation could leave the 32-bit range.
-/

set_option linter.unusedVariables false

namespace nFPGA

/-! ## `tInterruptManager.cpp` -/

/-- Width of `uint32_t`. -/
def UINT32_MOD : Nat := 2 ^ 32

/-- The C++ expression `a & b` on `uint32_t` operands. -/
def and32 (a b : Nat) : Nat := (a &&& b) % UINT32_MOD

/-- The C++ expression `a | b` on `uint32_t` operands. -/
def or32 (a b : Nat) : Nat := (a ||| b) % UINT32_MOD

/-- The C++ expression `~a` on a `uint32_t` operand: every one of the 32 bits flipped. -/
def not32 (a : Nat) : Nat := (UINT32_MOD - 1) ^^^ (a % UINT32_MOD)

/-- The two values of `tRioStatusCode` that `tInterruptManager.cpp` assigns.
Their numeric values are declared in the vendor header `NiFpga.h`, which is not part of
the translation unit; only the fact that they are two different enumerators is used. -/
inductive tRioStatusCode where
  | NiFpga_Status_Success
  | NiFpga_Status_AccessDenied
  deriving DecidableEq, Repr

open tRioStatusCode

/-- The `NTTask` owned by an interrupt thread (declared in `OSAL/Task.h`, not part of the
translation unit): only whether it has been started and not stopped is tracked. -/
structure NTTask where
  running : Bool
  deriving DecidableEq, Repr

/-- The nested class `tInterruptManager::tInterruptThread`. -/
structure tInterruptThread where
  task : NTTask
  deriving DecidableEq, Repr

/-- `NTTask::Stop`. -/
def tInterruptThread.Stop (t : tInterruptThread) : tInterruptThread :=
  { t with task := { running := false } }

/-- `NTTask::Start`. -/
def tInterruptThread.Start (t : tInterruptThread) : tInterruptThread :=
  { t with task := { running := true } }

/-- The data members of one `tInterruptManager` object. Function pointers and the user
parameter are addresses; `none` is `NULL` (for `_thread`: not yet assigned). -/
structure tInterruptManager where
  _interruptMask : Nat
  _watcher : Bool
  _enabled : Bool
  _handler : Option Nat
  _userParam : Nat
  _thread : Option tInterruptThread
  deriving DecidableEq, Repr

/-- The constructor `tInterruptManager::tInterruptManager(interruptMask, watcher, status)`. -/
def tInterruptManager.new (interruptMask : Nat) (watcher : Bool) :
    tInterruptManager × tRioStatusCode :=
  ({ _interruptMask := interruptMask % UINT32_MOD
     _watcher := watcher
     _enabled := false
     _handler := none
     _userParam := 0
     _thread := none }, NiFpga_Status_Success)

/-- What a member function leaves behind: the static `_globalInterruptMask`, the object
itself, and the value written through the `status` pointer. -/
structure Outcome where
  globalMask : Nat
  self : tInterruptManager
  status : tRioStatusCode
  deriving DecidableEq, Repr

/-- The member `tInterruptManager::reserve`, run with `_globalInterruptMask = g`. The
semaphore is taken on entry and given back on both exits; it guards only this body. -/
def tInterruptManager.reserve (g : Nat) (self : tInterruptManager)
    (status : tRioStatusCode) : Outcome :=
  if and32 g self._interruptMask > 0 then
    { globalMask := g, self := self, status := NiFpga_Status_AccessDenied }
  else
    { globalMask := or32 g self._interruptMask, self := self,
      status := NiFpga_Status_Success }

/-- The member `tInterruptManager::unreserve`, run with `_globalInterruptMask = g`. -/
def tInterruptManager.unreserve (g : Nat) (self : tInterruptManager)
    (status : tRioStatusCode) : Outcome :=
  { globalMask := and32 g (not32 self._interruptMask), self := self,
    status := NiFpga_Status_Success }

/-- The member `tInterruptManager::enable`. -/
def tInterruptManager.enable (g : Nat) (self : tInterruptManager) : Outcome :=
  let status := NiFpga_Status_Success
  let r := self.reserve g status
  let old := r.self._enabled
  let self1 := { r.self with _enabled := true }
  let self2 :=
    if old then { self1 with _thread := self1._thread.map tInterruptThread.Stop } else self1
  let self3 := { self2 with _thread := some (tInterruptThread.Start { task := { running := false } }) }
  { globalMask := r.globalMask, self := self3, status := r.status }

/-- The member `tInterruptManager::disable`. -/
def tInterruptManager.disable (g : Nat) (self : tInterruptManager) : Outcome :=
  let status := NiFpga_Status_Success
  let r := self.unreserve g status
  let old := r.self._enabled
  let self1 := { r.self with _enabled := false }
  let self2 :=
    if old then { self1 with _thread := self1._thread.map tInterruptThread.Stop } else self1
  { globalMask := r.globalMask, self := self2, status := r.status }

/-- The member `tInterruptManager::isEnabled`. -/
def tInterruptManager.isEnabled (self : tInterruptManager) : Bool × tRioStatusCode :=
  (self._enabled, NiFpga_Status_Success)


/-! ### Several manager objects sharing the static mask -/

/-- A call made on the `i`-th of the `n` manager objects of a process. -/
inductive Call (n : Nat) where
  | enable (i : Fin n)
  | disable (i : Fin n)
  deriving DecidableEq, Repr

/-- A process image: the static `tInterruptManager::_globalInterruptMask` and the `n`
manager objects that share it. -/
structure Process (n : Nat) where
  _globalInterruptMask : Nat
  objects : Fin n → tInterruptManager

/-- Program start: the static initialiser `_globalInterruptMask = 0`, and `n` objects
built by the constructor with the given masks. -/
def Process.start {n : Nat} (masks : Fin n → Nat) : Process n :=
  { _globalInterruptMask := 0
    objects := fun i => (tInterruptManager.new (masks i) false).1 }

/-- One call: the member function runs on the addressed object against the shared mask. -/
def Process.call {n : Nat} (p : Process n) : Call n → Process n × tRioStatusCode
  | .enable i =>
    let r := (p.objects i).enable p._globalInterruptMask
    ({ _globalInterruptMask := r.globalMask
       objects := Function.update p.objects i r.self }, r.status)
  | .disable i =>
    let r := (p.objects i).disable p._globalInterruptMask
    ({ _globalInterruptMask := r.globalMask
       objects := Function.update p.objects i r.self }, r.status)

/-- A sequence of calls, with the status each one reported, in call order. -/
def Process.run {n : Nat} (p : Process n) : List (Call n) → Process n × List tRioStatusCode
  | [] => (p, [])
  | c :: cs =>
    let r := p.call c
    let rest := r.1.run cs
    (rest.1, r.2 :: rest.2)

/-- Bookkeeping over a finished history of calls and reported statuses: the most recent
`enable` of object `i` reported Success and object `i` has not been disabled since. -/
def holdsReservation {n : Nat} (i : Fin n) (history : List (Call n × tRioStatusCode)) : Bool :=
  history.foldl
    (fun held entry =>
      match entry with
      | (.enable j, st) => if j = i then decide (st = NiFpga_Status_Success) else held
      | (.disable j, _) => if j = i then false else held)
    false

end nFPGA

namespace hel

/-! ## `receive_data.hpp` : the registry `ReceiveDataManager` -/

/-- Identity of a thread of the process. -/
abbrev ThreadId := Nat

/-- Identity of a `ReceiveData` object: the `k`-th object constructed has identity `k`. -/
abbrev ObjectId := Nat

/-- A `std::shared_ptr<ReceiveData>`: `none` is `nullptr`. -/
abbrev shared_ptr := Option ObjectId

/-- State of a `std::recursive_mutex`: the owning thread, if any, and its number of
levels of ownership. -/
structure recursive_mutex where
  owner : Option ThreadId
  level : Nat
  deriving DecidableEq, Repr

/-- The call `lock()` made by thread `t`. `none` means the call does not return in this state:
another thread owns the mutex and `t` waits. -/
def recursive_mutex.lock (m : recursive_mutex) (t : ThreadId) : Option recursive_mutex :=
  match m.owner with
  | none => some { owner := some t, level := 1 }
  | some o => if o = t then some { owner := some t, level := m.level + 1 } else none

/-- The call `unlock()` made by the owning thread `t`: one level is given up, and the mutex
is free again when the last level is given up. A call by a thread that is not the owner has
no defined behaviour and is left as the identity. -/
def recursive_mutex.unlock (m : recursive_mutex) (t : ThreadId) : recursive_mutex :=
  if m.owner = some t then
    if m.level ≤ 1 then { owner := none, level := 0 } else { owner := some t, level := m.level - 1 }
  else m

/-- Number of levels of ownership thread `t` has on the mutex. -/
def recursive_mutex.holdCount (m : recursive_mutex) (t : ThreadId) : Nat :=
  if m.owner = some t then m.level else 0

/-- A `std::unique_lock<std::recursive_mutex>` on `receive_data_mutex`: the thread that
built it and whether it owns one level of the mutex. -/
structure unique_lock where
  thread : ThreadId
  owns : Bool
  deriving DecidableEq, Repr

/-- The static data members of `ReceiveDataManager`. -/
structure ReceiveDataManager where
  instance_ : shared_ptr
  receive_data_mutex : recursive_mutex
  deriving DecidableEq, Repr

/-- The statements of `getInstance`, as they are executed. -/
inductive Event where
  /-- Line 161: the `unique_lock` constructor locks `receive_data_mutex`. -/
  | acquire (t : ThreadId)
  /-- Line 162: `instance` is read and compared with `nullptr`. -/
  | readInstance
  /-- Line 163: `std::make_shared<ReceiveData>()` and the assignment to `instance`. -/
  | createInstance (obj : ObjectId)
  /-- Line 165: the pair is built from `instance` and the moved lock, and returned. -/
  | returnPair
  deriving DecidableEq, Repr

/-- What a returning call of `getInstance` leaves: the statics, the number of `ReceiveData`
objects constructed so far, the returned pair, and the statements executed. -/
structure GetInstanceResult where
  manager : ReceiveDataManager
  constructed : Nat
  first : shared_ptr
  second : unique_lock
  events : List Event
  deriving DecidableEq, Repr

/-- The static member function `ReceiveDataManager::getInstance`, called by thread `t` when
`constructed` objects of type `ReceiveData` exist. `none`: the thread waits in the
constructor of `lock` and nothing else is executed. -/
def ReceiveDataManager.getInstance (t : ThreadId) (mgr : ReceiveDataManager)
    (constructed : Nat) : Option GetInstanceResult :=
  match mgr.receive_data_mutex.lock t with
  | none => none
  | some m1 =>
    let lock : unique_lock := { thread := t, owns := true }
    match mgr.instance_ with
    | none =>
      some { manager := { instance_ := some constructed, receive_data_mutex := m1 }
             constructed := constructed + 1
             first := some constructed
             second := lock
             events := [.acquire t, .readInstance, .createInstance constructed, .returnPair] }
    | some p =>
      some { manager := { instance_ := some p, receive_data_mutex := m1 }
             constructed := constructed
             first := some p
             second := lock
             events := [.acquire t, .readInstance, .returnPair] }

/-- The destructor of a handle returned by `getInstance`: a `unique_lock` that owns the
mutex unlocks it. -/
def unique_lock.destroy (l : unique_lock) (m : recursive_mutex) : recursive_mutex :=
  if l.owns then m.unlock l.thread else m

/-- What code outside the two classes can do with this header. -/
inductive Op where
  /-- Thread `t` calls the public static `ReceiveDataManager::getInstance`. -/
  | getInstance (t : ThreadId)
  /-- Thread `t` lets the handle it received last go out of scope. -/
  | release (t : ThreadId)
  /-- The public constructor `ReceiveData::ReceiveData()` is called directly. -/
  | construct
  deriving DecidableEq, Repr

/-- The process as seen by the callers: the statics, the number of `ReceiveData` objects
constructed, and for each thread the handles it received from `getInstance` and still
holds, the most recent first. -/
structure World where
  manager : ReceiveDataManager
  constructed : Nat
  held : ThreadId → List unique_lock

/-- Program start: `instance` is `nullptr`, the mutex is free, no object and no handle
exists. -/
def World.init : World :=
  { manager := { instance_ := none, receive_data_mutex := { owner := none, level := 0 } }
    constructed := 0
    held := fun _ => [] }

/-- What one operation hands to the code that performed it. -/
inductive Obtained where
  /-- The pair returned by `getInstance`. -/
  | pair (r : GetInstanceResult)
  /-- The object built by a direct constructor call. -/
  | object (obj : ObjectId)
  deriving DecidableEq, Repr

/-- One operation. A `getInstance` call that has to wait, and a `release` by a thread that
holds no handle, leave the world as it is and hand nothing over. -/
def World.step (w : World) : Op → World × Option Obtained
  | .getInstance t =>
    match ReceiveDataManager.getInstance t w.manager w.constructed with
    | none => (w, none)
    | some r =>
      ({ manager := r.manager
         constructed := r.constructed
         held := Function.update w.held t (r.second :: w.held t) }, some (.pair r))
  | .release t =>
    match w.held t with
    | [] => (w, none)
    | l :: ls =>
      ({ manager := { w.manager with
                      receive_data_mutex := l.destroy w.manager.receive_data_mutex }
         constructed := w.constructed
         held := Function.update w.held t ls }, none)
  | .construct =>
    ({ w with constructed := w.constructed + 1 }, some (.object w.constructed))

/-- A sequence of operations, with what each one handed over, in order. -/
def World.run (w : World) : List Op → World × List (Option Obtained)
  | [] => (w, [])
  | op :: ops =>
    let r := w.step op
    let rest := r.1.run ops
    (rest.1, r.2 :: rest.2)

/-- The pairs returned by the `getInstance` calls of a history, in order. -/
def returnedPairs : List (Option Obtained) → List GetInstanceResult
  | [] => []
  | some (.pair r) :: rest => r :: returnedPairs rest
  | _ :: rest => returnedPairs rest

/-- The objects built by direct constructor calls in a history, in order. -/
def constructedObjects : List (Option Obtained) → List ObjectId
  | [] => []
  | some (.object o) :: rest => o :: constructedObjects rest
  | _ :: rest => constructedObjects rest

/-- Whether a returning `getInstance` call executed line 163. -/
def GetInstanceResult.created (r : GetInstanceResult) : Bool :=
  r.events.any (fun e => match e with
    | .createInstance _ => true
    | _ => false)

/-- Consistency of the handles held by the callers with the state of the mutex: every
handle a thread holds was built by that thread and owns the mutex, and the number of
levels a thread has on the mutex is the number of handles it holds, and an owned mutex
has at least one level. -/
structure World.Consistent (w : World) : Prop where
  handles : ∀ t, ∀ l ∈ w.held t, l = { thread := t, owns := true }
  levels : ∀ t, w.manager.receive_data_mutex.holdCount t = (w.held t).length
  positive : ∀ o, w.manager.receive_data_mutex.owner = some o →
    1 ≤ w.manager.receive_data_mutex.level

/-- The registry's instance, when non-null, is one of the objects constructed so far. -/
def World.InstanceAllocated (w : World) : Prop :=
  ∀ p, w.manager.instance_ = some p → p < w.constructed

end hel

namespace hel

/-! ## `receive_data.hpp` : the telemetry snapshot `ReceiveData`

The header declares the data members and the member functions of `ReceiveData`. The
headers of the element types, the capacities, and every function body live outside the
translation unit; they are parameters below or are modelled from the specification. -/

/-- A `std::string`. -/
abbrev Text := List Char

/-- The six input categories held by `ReceiveData`, in the order of the sections of a
message. -/
inductive Category where
  | digital_hdrs
  | digital_mxp
  | joysticks
  | match_info
  | robot_mode
  | encoders
  deriving DecidableEq, Repr

/-- The element types and capacities that `receive_data.hpp` takes from headers outside the
translation unit (`mxp_data.hpp`, `joystick.hpp`, `match_info.hpp`, `robot_mode.hpp`,
`encoder_manager.hpp`, `digital_system.hpp`, `fpga_encoder.hpp`). -/
structure Types where
  MXPData : Type
  Joystick : Type
  MatchInfo : Type
  RobotMode : Type
  EncoderManager : Type
  NUM_DIGITAL_HEADERS : Nat
  NUM_DIGITAL_MXP_CHANNELS : Nat
  MAX_JOYSTICK_COUNT : Nat
  NUM_ENCODERS : Nat

/-- Modelled from the spec: the class template `BoundsCheckedArray<T, N>` of
`bounds_checked_array.hpp`, a fixed-capacity indexed container whose logical size is fixed
at construction and never changes. -/
structure BoundsCheckedArray (T : Type) (N : Nat) where
  data : List T
  size_eq : data.length = N

/-- Modelled from the spec: the error kinds of the bounded array and the optional value. -/
inductive AccessError where
  | IndexOutOfRange
  | ValueAbsent
  deriving DecidableEq, Repr

/-- Modelled from the spec: `get(index)` of the bounded array, which fails with an
out-of-range condition when the index is not in `[0, N)`. -/
def BoundsCheckedArray.get {T : Type} {N : Nat} (a : BoundsCheckedArray T N) (index : Int) :
    Except AccessError T :=
  if index < 0 then .error .IndexOutOfRange
  else
    match a.data.get? index.toNat with
    | some x => .ok x
    | none => .error .IndexOutOfRange

/-- Modelled from the spec: the class template `Maybe<T>`, a slot holding either a value
or "absent". -/
abbrev Maybe (T : Type) := Option T

/-- Modelled from the spec: reading a `Maybe<T>`, which fails with an "unset" condition on
an absent slot. -/
def Maybe.get {T : Type} (m : Maybe T) : Except AccessError T :=
  match m with
  | some x => .ok x
  | none => .error .ValueAbsent

/-- The data members of `ReceiveData` (lines 29 to 65 of the header). -/
structure ReceiveData (τ : Types) where
  last_received_data : Text
  digital_hdrs : BoundsCheckedArray Bool τ.NUM_DIGITAL_HEADERS
  digital_mxp : BoundsCheckedArray τ.MXPData τ.NUM_DIGITAL_MXP_CHANNELS
  joysticks : BoundsCheckedArray τ.Joystick τ.MAX_JOYSTICK_COUNT
  match_info : τ.MatchInfo
  robot_mode : τ.RobotMode
  encoder_managers : BoundsCheckedArray (Maybe τ.EncoderManager) τ.NUM_ENCODERS

/-- The sections of a message in their fixed order. -/
def Category.all : List Category :=
  [.digital_hdrs, .digital_mxp, .joysticks, .match_info, .robot_mode, .encoders]

/-- The type of the value `ReceiveData` stores for a category. -/
def Category.Value (τ : Types) : Category → Type
  | .digital_hdrs => BoundsCheckedArray Bool τ.NUM_DIGITAL_HEADERS
  | .digital_mxp => BoundsCheckedArray τ.MXPData τ.NUM_DIGITAL_MXP_CHANNELS
  | .joysticks => BoundsCheckedArray τ.Joystick τ.MAX_JOYSTICK_COUNT
  | .match_info => τ.MatchInfo
  | .robot_mode => τ.RobotMode
  | .encoders => BoundsCheckedArray (Maybe τ.EncoderManager) τ.NUM_ENCODERS

/-- The data member of `ReceiveData` that holds a category. -/
def ReceiveData.get {τ : Types} (self : ReceiveData τ) : (c : Category) → c.Value τ
  | .digital_hdrs => self.digital_hdrs
  | .digital_mxp => self.digital_mxp
  | .joysticks => self.joysticks
  | .match_info => self.match_info
  | .robot_mode => self.robot_mode
  | .encoders => self.encoder_managers

/-- Modelled from the spec: the structured-text coding of one kind of payload. The decoder
`read` consumes a payload at the head of the buffer and leaves the remainder for the next
field, or fails on a malformed payload; `write` is the encoding `toString` emits. -/
structure Format (α : Type) where
  write : α → Text
  read : Text → Option (α × Text)

/-- Modelled from the spec: consuming a literal at the head of the buffer, the elementary
step of the incremental structured-text decoder. -/
def expect : Text → Text → Option Text
  | [], input => some input
  | _ :: _, [] => none
  | c :: cs, d :: ds => if c = d then expect cs ds else none

/-- Modelled from the spec: the literal `null` that stands for an absent record. -/
def nullLiteral : Text := ['n', 'u', 'l', 'l']

/-- Modelled from the spec: the character that opens an object of named fields. -/
def openBrace : Char := Char.ofNat 123

/-- Modelled from the spec: the character that closes an object of named fields. -/
def closeBrace : Char := Char.ofNat 125

/-- Modelled from the spec: the coding of a boolean scalar. -/
def boolFormat : Format Bool where
  write b := if b then ['t', 'r', 'u', 'e'] else ['f', 'a', 'l', 's', 'e']
  read input :=
    match expect ['t', 'r', 'u', 'e'] input with
    | some rest => some (true, rest)
    | none =>
      match expect ['f', 'a', 'l', 's', 'e'] input with
      | some rest => some (false, rest)
      | none => none

/-- Modelled from the spec: the coding of a structured record as an object of named
fields. The fields of the record types are declared outside the translation unit, so the
coding `body` of what stands between the braces is a parameter. -/
def objectFormat {α : Type} (body : Format α) : Format α where
  write a := openBrace :: (body.write a ++ [closeBrace])
  read input :=
    match expect [openBrace] input with
    | none => none
    | some rest =>
      match body.read rest with
      | none => none
      | some (a, rest1) =>
        match expect [closeBrace] rest1 with
        | none => none
        | some rest2 => some (a, rest2)

/-- Modelled from the spec: the coding of an optional record. An absent slot is written as
`null`, and `null` in the input yields an absent slot. -/
def maybeFormat {α : Type} (f : Format α) : Format (Maybe α) where
  write m :=
    match m with
    | none => nullLiteral
    | some a => f.write a
  read input :=
    match expect nullLiteral input with
    | some rest => some (none, rest)
    | none =>
      match f.read input with
      | some (a, rest) => some (some a, rest)
      | none => none

/-- Modelled from the spec: the comma-separated encodings of the entries of an array. -/
def writeElems {α : Type} (f : Format α) : List α → Text
  | [] => []
  | [a] => f.write a
  | a :: b :: rest => f.write a ++ ',' :: writeElems f (b :: rest)

/-- Modelled from the spec: reading exactly `n` comma-separated entries. -/
def readElems {α : Type} (f : Format α) : Nat → Text → Option (List α × Text)
  | 0, input => some ([], input)
  | n + 1, input =>
    match f.read input with
    | none => none
    | some (a, rest) =>
      if n = 0 then some ([a], rest)
      else
        match expect [','] rest with
        | none => none
        | some rest1 =>
          match readElems f n rest1 with
          | none => none
          | some (as, rest2) => some (a :: as, rest2)

/-- Modelled from the spec: the coding of a fixed-length array, `[e1,e2,...]`. Decoding
fails when the number of entries does not match the fixed capacity. -/
def arrayFormat {α : Type} (N : Nat) (f : Format α) : Format (BoundsCheckedArray α N) where
  write a := '[' :: writeElems f a.data ++ [']']
  read input :=
    match expect ['['] input with
    | none => none
    | some rest =>
      match readElems f N rest with
      | none => none
      | some (l, rest1) =>
        match expect [']'] rest1 with
        | none => none
        | some rest2 => if h : l.length = N then some (⟨l, h⟩, rest2) else none

/-- Modelled from the spec: what the message schema leaves to the headers outside the
translation unit, namely the coding of the fields of each record type, and the fixed list
of categories the shallow path covers. -/
structure Schema (τ : Types) where
  mxp_data : Format τ.MXPData
  joystick : Format τ.Joystick
  match_info : Format τ.MatchInfo
  robot_mode : Format τ.RobotMode
  encoder_manager : Format τ.EncoderManager
  shallow : Category → Bool

/-- Modelled from the spec: the coding of one encoder slot, an optional object. -/
def Schema.encoderSlot {τ : Types} (S : Schema τ) : Format (Maybe τ.EncoderManager) :=
  maybeFormat (objectFormat S.encoder_manager)

/-- Modelled from the spec: the coding of each section of a message. Digital headers are
an array of boolean scalars, MXP channels and joysticks are arrays of objects, match info
and robot mode are single objects, and encoders are an array of optional objects in which
an absent slot is `null`. Every array has the fixed capacity of its category. -/
def Schema.format {τ : Types} (S : Schema τ) : (c : Category) → Format (c.Value τ)
  | .digital_hdrs => arrayFormat τ.NUM_DIGITAL_HEADERS boolFormat
  | .digital_mxp => arrayFormat τ.NUM_DIGITAL_MXP_CHANNELS (objectFormat S.mxp_data)
  | .joysticks => arrayFormat τ.MAX_JOYSTICK_COUNT (objectFormat S.joystick)
  | .match_info => objectFormat S.match_info
  | .robot_mode => objectFormat S.robot_mode
  | .encoders => arrayFormat τ.NUM_ENCODERS S.encoderSlot

/-- Modelled from the spec: the encodings of the given categories, one section after the
other. -/
def ReceiveData.writeSections {τ : Types} (S : Schema τ) (self : ReceiveData τ) :
    List Category → Text
  | [] => []
  | c :: cs => (S.format c).write (self.get c) ++ ReceiveData.writeSections S self cs

/-- Modelled from the spec: `toString() const`, the encoding of all categories in the
order of the sections of a message. -/
def ReceiveData.toString {τ : Types} (S : Schema τ) (self : ReceiveData τ) : Text :=
  self.writeSections S Category.all

/-- Modelled from the spec: the externally owned hardware-register mirror (the `RoboRIO`
object held by `RoboRIOManager`): the six inputs the snapshot can set, and all its other
fields. -/
structure Mirror (τ : Types) (ρ : Type) where
  digital_hdrs : BoundsCheckedArray Bool τ.NUM_DIGITAL_HEADERS
  digital_mxp : BoundsCheckedArray τ.MXPData τ.NUM_DIGITAL_MXP_CHANNELS
  joysticks : BoundsCheckedArray τ.Joystick τ.MAX_JOYSTICK_COUNT
  match_info : τ.MatchInfo
  robot_mode : τ.RobotMode
  encoder_managers : BoundsCheckedArray (Maybe τ.EncoderManager) τ.NUM_ENCODERS
  other : ρ

/-- Modelled from the spec: a `ReceiveData` object together with the mirror its `update...`
members write to. -/
structure Emulator (τ : Types) (ρ : Type) where
  snapshot : ReceiveData τ
  mirror : Mirror τ ρ

/-- Modelled from the spec: `updateDeep() const`, which pushes the current value of every
category into the mirror. -/
def Emulator.updateDeep {τ : Types} {ρ : Type} (e : Emulator τ ρ) : Emulator τ ρ :=
  { snapshot := e.snapshot
    mirror :=
      { digital_hdrs := e.snapshot.digital_hdrs
        digital_mxp := e.snapshot.digital_mxp
        joysticks := e.snapshot.joysticks
        match_info := e.snapshot.match_info
        robot_mode := e.snapshot.robot_mode
        encoder_managers := e.snapshot.encoder_managers
        other := e.mirror.other } }

/-- Modelled from the spec: `updateShallow() const`, which pushes the current value of the
shallow-path categories into the mirror. -/
def Emulator.updateShallow {τ : Types} {ρ : Type} (S : Schema τ) (e : Emulator τ ρ) :
    Emulator τ ρ :=
  { snapshot := e.snapshot
    mirror :=
      { digital_hdrs :=
          if S.shallow .digital_hdrs then e.snapshot.digital_hdrs else e.mirror.digital_hdrs
        digital_mxp :=
          if S.shallow .digital_mxp then e.snapshot.digital_mxp else e.mirror.digital_mxp
        joysticks :=
          if S.shallow .joysticks then e.snapshot.joysticks else e.mirror.joysticks
        match_info :=
          if S.shallow .match_info then e.snapshot.match_info else e.mirror.match_info
        robot_mode :=
          if S.shallow .robot_mode then e.snapshot.robot_mode else e.mirror.robot_mode
        encoder_managers :=
          if S.shallow .encoders then e.snapshot.encoder_managers
          else e.mirror.encoder_managers
        other := e.mirror.other } }

/-- Modelled from the spec: a call of `toString() const` on the snapshot of an emulator:
the text it returns and the emulator after the call. -/
def Emulator.toString {τ : Types} {ρ : Type} (S : Schema τ) (e : Emulator τ ρ) :
    Text × Emulator τ ρ :=
  (e.snapshot.toString S, e)

/-- Modelled from the spec: the input of the mirror that belongs to a category. -/
def Mirror.get {τ : Types} {ρ : Type} (m : Mirror τ ρ) : (c : Category) → c.Value τ
  | .digital_hdrs => m.digital_hdrs
  | .digital_mxp => m.digital_mxp
  | .joysticks => m.joysticks
  | .match_info => m.match_info
  | .robot_mode => m.robot_mode
  | .encoders => m.encoder_managers

end hel
namespace nFPGA

open tRioStatusCode

/-! ## Bit-level facts about the 32-bit operators -/

theorem and32_of_lt {a : Nat} (b : Nat) (ha : a < 2 ^ 32) : and32 a b = a &&& b := by
  unfold and32 UINT32_MOD
  exact Nat.mod_eq_of_lt (lt_of_le_of_lt Nat.and_le_left ha)

theorem or32_of_lt {a b : Nat} (ha : a < 2 ^ 32) (hb : b < 2 ^ 32) : or32 a b = a ||| b := by
  unfold or32 UINT32_MOD
  exact Nat.mod_eq_of_lt (Nat.or_lt_two_pow ha hb)

theorem testBit_not32 (m i : Nat) (hm : m < 2 ^ 32) :
    (not32 m).testBit i = (decide (i < 32) && !m.testBit i) := by
  unfold not32 UINT32_MOD
  rw [Nat.mod_eq_of_lt hm, Nat.testBit_xor, Nat.testBit_two_pow_sub_one]
  by_cases hi : i < 32
  · simp [hi]
  · have : m.testBit i = false :=
      Nat.testBit_eq_false_of_lt (lt_of_lt_of_le hm (Nat.pow_le_pow_right (by decide) (by omega)))
    simp [hi, this]

theorem or_and_not32_cancel {g m : Nat} (hg : g < 2 ^ 32) (hm : m < 2 ^ 32)
    (h : g &&& m = 0) : (g ||| m) &&& not32 m = g := by
  apply Nat.eq_of_testBit_eq
  intro i
  have hbit : (g.testBit i && m.testBit i) = false := by
    rw [← Nat.testBit_and, h, Nat.zero_testBit]
  rw [Nat.testBit_and, Nat.testBit_or, testBit_not32 m i hm]
  by_cases hi : i < 32
  · cases hgi : g.testBit i <;> cases hmi : m.testBit i <;> simp_all
  · have : g.testBit i = false :=
      Nat.testBit_eq_false_of_lt (lt_of_lt_of_le hg (Nat.pow_le_pow_right (by decide) (by omega)))
    simp [hi, this]

/-- C8: with a 32-bit global mask `g` and a manager whose mask `m` is 32-bit, `reserve`
reports `NiFpga_Status_Success` exactly when `(g & m) == 0`; in that case the global mask
becomes `g | m`; otherwise it reports `NiFpga_Status_AccessDenied` and the global mask
stays `g`. -/
theorem reserve_status_iff (g : Nat) (self : tInterruptManager) (status : tRioStatusCode)
    (hg : g < 2 ^ 32) (hm : self._interruptMask < 2 ^ 32) :
    ((self.reserve g status).status = NiFpga_Status_Success ↔ g &&& self._interruptMask = 0) ∧
    (g &&& self._interruptMask = 0 →
      (self.reserve g status).status = NiFpga_Status_Success ∧
      (self.reserve g status).globalMask = g ||| self._interruptMask) ∧
    (g &&& self._interruptMask ≠ 0 →
      (self.reserve g status).status = NiFpga_Status_AccessDenied ∧
      (self.reserve g status).globalMask = g) := by
  unfold tInterruptManager.reserve
  rw [and32_of_lt _ hg, or32_of_lt hg hm]
  by_cases h : g &&& self._interruptMask = 0
  · simp [h]
  · have hpos : g &&& self._interruptMask > 0 := Nat.pos_of_ne_zero h
    simp [h, hpos]

theorem reserve_status_iff_witness :
    (((tInterruptManager.new 5 false).1.reserve 2 NiFpga_Status_Success).status
        = NiFpga_Status_Success ↔ 2 &&& (tInterruptManager.new 5 false).1._interruptMask = 0) ∧
    (2 &&& (tInterruptManager.new 5 false).1._interruptMask = 0 →
      ((tInterruptManager.new 5 false).1.reserve 2 NiFpga_Status_Success).status
        = NiFpga_Status_Success ∧
      ((tInterruptManager.new 5 false).1.reserve 2 NiFpga_Status_Success).globalMask
        = 2 ||| (tInterruptManager.new 5 false).1._interruptMask) ∧
    (2 &&& (tInterruptManager.new 5 false).1._interruptMask ≠ 0 →
      ((tInterruptManager.new 5 false).1.reserve 2 NiFpga_Status_Success).status
        = NiFpga_Status_AccessDenied ∧
      ((tInterruptManager.new 5 false).1.reserve 2 NiFpga_Status_Success).globalMask = 2) :=
  reserve_status_iff 2 (tInterruptManager.new 5 false).1 NiFpga_Status_Success
    (by decide) (by decide)

/-- C10: for a 32-bit global mask `g` and a disabled manager whose 32-bit mask `m` has
`(g & m) == 0`, `enable` then `disable` both report Success, `isEnabled` is true in between
and false afterwards, and the global mask is `g` again, that is `((g | m) & ~m) == g`. -/
theorem enable_then_disable_restores (g : Nat) (self : tInterruptManager)
    (hg : g < 2 ^ 32) (hm : self._interruptMask < 2 ^ 32)
    (hdis : self._enabled = false) (h : g &&& self._interruptMask = 0) :
    (self.enable g).status = NiFpga_Status_Success ∧
    (self.enable g).self.isEnabled = (true, NiFpga_Status_Success) ∧
    (self.enable g).globalMask = g ||| self._interruptMask ∧
    ((self.enable g).self.disable (self.enable g).globalMask).status = NiFpga_Status_Success ∧
    ((self.enable g).self.disable (self.enable g).globalMask).self.isEnabled
      = (false, NiFpga_Status_Success) ∧
    ((self.enable g).self.disable (self.enable g).globalMask).globalMask = g ∧
    and32 (or32 g self._interruptMask) (not32 self._interruptMask) = g := by
  have hor : g ||| self._interruptMask < 2 ^ 32 := Nat.or_lt_two_pow hg hm
  have hkey : and32 (or32 g self._interruptMask) (not32 self._interruptMask) = g := by
    rw [or32_of_lt hg hm, and32_of_lt _ hor]
    exact or_and_not32_cancel hg hm h
  have hres : self.reserve g NiFpga_Status_Success =
      { globalMask := or32 g self._interruptMask, self := self,
        status := NiFpga_Status_Success } := by
    unfold tInterruptManager.reserve
    rw [and32_of_lt _ hg, h]
    simp
  refine ⟨?_, ?_, ?_, ?_, ?_, ?_, hkey⟩
  · simp [tInterruptManager.enable, hres]
  · simp [tInterruptManager.enable, hres, hdis, tInterruptManager.isEnabled]
  · simp [tInterruptManager.enable, hres, or32_of_lt hg hm]
  · simp [tInterruptManager.disable, tInterruptManager.unreserve]
  · simp only [tInterruptManager.disable, tInterruptManager.unreserve,
      tInterruptManager.isEnabled]
    split <;> rfl
  · simp [tInterruptManager.disable, tInterruptManager.unreserve, tInterruptManager.enable,
      hres, hdis, hkey]

end nFPGA

namespace nFPGA

open tRioStatusCode

/-- C9 (evaluation at the failing input): two managers with the same mask `1`. Manager 0
is enabled with Success, manager 1 is denied, then manager 1 is disabled. Manager 0 still
holds a successful enable, yet its bit has left the global mask, and the next `enable` of
manager 1 reports Success on the overlapping mask. -/
theorem foreign_disable_clears_reservation :
    ((Process.start (fun _ : Fin 2 => 1)).run [.enable 0, .enable 1, .disable 1]).2
      = [NiFpga_Status_Success, NiFpga_Status_AccessDenied, NiFpga_Status_Success] ∧
    holdsReservation (0 : Fin 2)
      [(.enable 0, NiFpga_Status_Success), (.enable 1, NiFpga_Status_AccessDenied),
       (.disable 1, NiFpga_Status_Success)] = true ∧
    (((Process.start (fun _ : Fin 2 => 1)).run
        [.enable 0, .enable 1, .disable 1]).1.objects 0)._enabled = true ∧
    (((Process.start (fun _ : Fin 2 => 1)).run
        [.enable 0, .enable 1, .disable 1]).1.objects 0)._interruptMask = 1 ∧
    ((Process.start (fun _ : Fin 2 => 1)).run
        [.enable 0, .enable 1, .disable 1]).1._globalInterruptMask = 0 ∧
    (((Process.start (fun _ : Fin 2 => 1)).run
        [.enable 0, .enable 1, .disable 1]).1.call (.enable 1)).2 = NiFpga_Status_Success := by
  refine ⟨?_, ?_, ?_, ?_, ?_, ?_⟩ <;> decide

end nFPGA

namespace hel

/-! ## The registry: single calls -/

theorem lock_isSome_iff (m : recursive_mutex) (t : ThreadId) :
    (m.lock t).isSome ↔ (m.owner = none ∨ m.owner = some t) := by
  unfold recursive_mutex.lock
  cases h : m.owner with
  | none => simp
  | some o =>
    by_cases ho : o = t
    · simp [ho]
    · simp [ho]

theorem lock_holdCount (m m1 : recursive_mutex) (t : ThreadId) (h : m.lock t = some m1) :
    m1.owner = some t ∧ m1.level = m.holdCount t + 1 ∧ m1.holdCount t = m.holdCount t + 1 ∧
    (m.owner = none → m.level = 0 → m1.level = 1) := by
  unfold recursive_mutex.lock at h
  unfold recursive_mutex.holdCount
  cases ho : m.owner with
  | none =>
    rw [ho] at h
    simp only [Option.some.injEq] at h
    subst h
    simp
  | some o =>
    rw [ho] at h
    by_cases hot : o = t
    · simp only [hot, if_true, Option.some.injEq] at h
      subst h
      simp [hot]
    · simp [hot] at h

theorem getInstance_eq_none_iff (t : ThreadId) (mgr : ReceiveDataManager) (n : Nat) :
    ReceiveDataManager.getInstance t mgr n = none ↔ mgr.receive_data_mutex.lock t = none := by
  unfold ReceiveDataManager.getInstance
  cases h : mgr.receive_data_mutex.lock t with
  | none => simp
  | some m1 => cases hi : mgr.instance_ <;> simp

theorem getInstance_some (t : ThreadId) (mgr : ReceiveDataManager) (n : Nat)
    (r : GetInstanceResult) (h : ReceiveDataManager.getInstance t mgr n = some r) :
    mgr.receive_data_mutex.lock t = some r.manager.receive_data_mutex ∧
    r.second = { thread := t, owns := true } ∧
    r.first = r.manager.instance_ ∧
    (mgr.instance_ = none →
      r.first = some n ∧ r.constructed = n + 1 ∧ r.created = true) ∧
    (∀ p, mgr.instance_ = some p →
      r.first = some p ∧ r.constructed = n ∧ r.created = false) ∧
    (∃ rest, r.events = Event.acquire t :: Event.readInstance :: rest ∧
      Event.acquire t ∉ rest ∧ Event.readInstance ∉ rest) ∧ n ≤ r.constructed := by
  unfold ReceiveDataManager.getInstance at h
  cases hl : mgr.receive_data_mutex.lock t with
  | none => rw [hl] at h; simp at h
  | some m1 =>
    rw [hl] at h
    cases hi : mgr.instance_ with
    | none =>
      rw [hi] at h
      simp only [Option.some.injEq] at h
      subst h
      simp [GetInstanceResult.created]
    | some p =>
      rw [hi] at h
      simp only [Option.some.injEq] at h
      subst h
      simp [GetInstanceResult.created]

theorem getInstance_isSome_iff (t : ThreadId) (mgr : ReceiveDataManager) (n : Nat) :
    (ReceiveDataManager.getInstance t mgr n).isSome = true ↔
      (mgr.receive_data_mutex.owner = none ∨ mgr.receive_data_mutex.owner = some t) := by
  rw [← lock_isSome_iff]
  cases h : ReceiveDataManager.getInstance t mgr n with
  | none =>
    have := (getInstance_eq_none_iff t mgr n).1 h
    simp [this]
  | some r =>
    have := (getInstance_some t mgr n r h).1
    simp [this]

end hel

namespace hel

/-! ## The registry: histories of operations -/

theorem run_nil (w : World) : w.run [] = (w, []) := rfl

theorem run_cons (w : World) (op : Op) (ops : List Op) :
    w.run (op :: ops) = (((w.step op).1.run ops).1, (w.step op).2 :: ((w.step op).1.run ops).2) :=
  rfl

theorem run_append (w : World) (ops₁ ops₂ : List Op) :
    w.run (ops₁ ++ ops₂) =
      (((w.run ops₁).1.run ops₂).1, (w.run ops₁).2 ++ ((w.run ops₁).1.run ops₂).2) := by
  induction ops₁ generalizing w with
  | nil => simp [run_nil]
  | cons op ops ih => simp [run_cons, ih]

/-- What a single operation does to the registry's instance. Either it hands over no pair
and leaves `instance` alone, or it is a returning `getInstance` call. -/
theorem step_cases (w : World) (op : Op) :
    ((∀ r, (w.step op).2 ≠ some (.pair r)) ∧
      (w.step op).1.manager.instance_ = w.manager.instance_ ∧
      w.constructed ≤ (w.step op).1.constructed) ∨
    (∃ t r, op = .getInstance t ∧
      ReceiveDataManager.getInstance t w.manager w.constructed = some r ∧
      (w.step op).2 = some (.pair r) ∧ (w.step op).1.manager = r.manager ∧
      (w.step op).1.constructed = r.constructed) := by
  cases op with
  | getInstance t =>
    cases h : ReceiveDataManager.getInstance t w.manager w.constructed with
    | none => left; simp [World.step, h]
    | some r => right; exact ⟨t, r, rfl, h, by simp [World.step, h], by simp [World.step, h],
        by simp [World.step, h]⟩
  | release t =>
    left
    cases h : w.held t with
    | nil => simp [World.step, h]
    | cons l ls => simp [World.step, h]
  | construct => left; simp [World.step]

theorem returnedPairs_cons_pair (r : GetInstanceResult) (l : List (Option Obtained)) :
    returnedPairs (some (.pair r) :: l) = r :: returnedPairs l := rfl

theorem returnedPairs_cons_other (o : Option Obtained) (l : List (Option Obtained))
    (h : ∀ r, o ≠ some (.pair r)) : returnedPairs (o :: l) = returnedPairs l := by
  cases o with
  | none => rfl
  | some x =>
    cases x with
    | pair r => exact absurd rfl (h r)
    | object obj => rfl

/-- Once `instance` is non-null, every later history only hands it out again. -/
theorem run_of_instance_some (w : World) (p : ObjectId) (hp : w.manager.instance_ = some p)
    (ops : List Op) :
    (∀ r ∈ returnedPairs (w.run ops).2, r.created = false ∧ r.first = some p) ∧
    (w.run ops).1.manager.instance_ = some p := by
  induction ops generalizing w with
  | nil => simp [run_nil, returnedPairs, hp]
  | cons op ops ih =>
    rw [run_cons]
    rcases step_cases w op with ⟨hno, hinst, -⟩ | ⟨t, r, -, hget, hob, hmgr, -⟩
    · have ih1 := ih (w.step op).1 (by rw [hinst, hp])
      simp only [returnedPairs_cons_other _ _ hno]
      exact ih1
    · obtain ⟨-, -, hfirst, -, hsome, -, -⟩ := getInstance_some t w.manager w.constructed r hget
      obtain ⟨h1, -, h3⟩ := hsome p hp
      have hinst : (w.step op).1.manager.instance_ = some p := by rw [hmgr, ← hfirst, h1]
      have ih1 := ih (w.step op).1 hinst
      simp only [hob, returnedPairs_cons_pair]
      refine ⟨?_, ih1.2⟩
      intro r' hr'
      rcases List.mem_cons.1 hr' with rfl | hr'
      · exact ⟨h3, h1⟩
      · exact ih1.1 r' hr'

/-- While `instance` is null, a history either returns no pair and leaves it null, or its
first returned pair comes from the call that created the Snapshot and all later pairs
carry the same pointer. -/
theorem run_of_instance_none (w : World) (hp : w.manager.instance_ = none) (ops : List Op) :
    (returnedPairs (w.run ops).2 = [] ∧ (w.run ops).1.manager.instance_ = none) ∨
    (∃ r rest, returnedPairs (w.run ops).2 = r :: rest ∧ r.created = true ∧ r.first ≠ none ∧
      (∀ r' ∈ rest, r'.created = false ∧ r'.first = r.first) ∧
      (w.run ops).1.manager.instance_ = r.first) := by
  induction ops generalizing w with
  | nil => left; simp [run_nil, returnedPairs, hp]
  | cons op ops ih =>
    rw [run_cons]
    rcases step_cases w op with ⟨hno, hinst, -⟩ | ⟨t, r, -, hget, hob, hmgr, -⟩
    · simp only [returnedPairs_cons_other _ _ hno]
      exact ih (w.step op).1 (by rw [hinst, hp])
    · right
      obtain ⟨-, -, hfirst, hnone, -, -, -⟩ := getInstance_some t w.manager w.constructed r hget
      obtain ⟨h1, -, h3⟩ := hnone hp
      have hinst : (w.step op).1.manager.instance_ = some w.constructed := by
        rw [hmgr, ← hfirst, h1]
      have hrest := run_of_instance_some (w.step op).1 w.constructed hinst ops
      simp only [hob, returnedPairs_cons_pair]
      refine ⟨r, _, rfl, h3, by simp [h1], ?_, ?_⟩
      · intro r' hr'
        rw [h1]
        exact hrest.1 r' hr'
      · rw [h1]; exact hrest.2

/-- While the mutex is free and no handle is held, the first `getInstance` call of a history
returns. -/
theorem first_call_returns (w : World) (hfree : w.manager.receive_data_mutex.owner = none)
    (hheld : ∀ t, w.held t = []) (ops : List Op) :
    (∃ t, Op.getInstance t ∈ ops) → returnedPairs (w.run ops).2 ≠ [] := by
  induction ops generalizing w with
  | nil => rintro ⟨t, ht⟩; cases ht
  | cons op ops ih =>
    rintro ⟨t, ht⟩
    rw [run_cons]
    cases op with
    | getInstance u =>
      have hsome := (getInstance_isSome_iff u w.manager w.constructed).2 (Or.inl hfree)
      cases hget : ReceiveDataManager.getInstance u w.manager w.constructed with
      | none => rw [hget] at hsome; cases hsome
      | some r => simp [World.step, hget, returnedPairs]
    | release u =>
      have hstep : w.step (.release u) = (w, none) := by simp [World.step, hheld u]
      rw [hstep]
      have hmem : ∃ t, Op.getInstance t ∈ ops := by
        rcases List.mem_cons.1 ht with h | h
        · cases h
        · exact ⟨t, h⟩
      simpa [returnedPairs] using ih w hfree hheld hmem
    | construct =>
      have hmem : ∃ t, Op.getInstance t ∈ ops := by
        rcases List.mem_cons.1 ht with h | h
        · cases h
        · exact ⟨t, h⟩
      have := ih (w.step .construct).1 hfree hheld hmem
      simpa [World.step, returnedPairs] using this

end hel

namespace hel

/-! ## The registry: handles and the recursive mutex -/

theorem init_consistent : World.init.Consistent :=
  ⟨by intro t l hl; simp [World.init] at hl,
   by intro t; simp [World.init, recursive_mutex.holdCount],
   by intro o ho; simp [World.init] at ho⟩

theorem holdCount_of_ne {m : recursive_mutex} {t u : ThreadId} (ho : m.owner = some t)
    (hne : u ≠ t) : m.holdCount u = 0 := by
  unfold recursive_mutex.holdCount
  rw [ho]
  have : ¬ (some t = some u) := by
    intro h
    exact hne (Option.some.inj h).symm
  simp [this]

theorem holdCount_of_free {m : recursive_mutex} (u : ThreadId) (ho : m.owner = none) :
    m.holdCount u = 0 := by
  unfold recursive_mutex.holdCount
  rw [ho]
  simp

theorem step_consistent (w : World) (hw : w.Consistent) (op : Op) :
    (w.step op).1.Consistent := by
  cases op with
  | construct => exact ⟨hw.handles, hw.levels, hw.positive⟩
  | getInstance t =>
    cases h : ReceiveDataManager.getInstance t w.manager w.constructed with
    | none => simpa [World.step, h] using hw
    | some r =>
      obtain ⟨hlock, hsecond, -⟩ := getInstance_some t w.manager w.constructed r h
      obtain ⟨hown, hlevel1, hcount, -⟩ := lock_holdCount _ _ t hlock
      have havail := (lock_isSome_iff w.manager.receive_data_mutex t).1 (by simp [hlock])
      simp only [World.step, h]
      refine ⟨?_, ?_, ?_⟩
      · intro u l hl
        by_cases hu : u = t
        · subst hu
          simp only [Function.update_same, List.mem_cons] at hl
          rcases hl with rfl | hl
          · exact hsecond
          · exact hw.handles u l hl
        · simp only [Function.update_noteq hu] at hl
          exact hw.handles u l hl
      · intro u
        by_cases hu : u = t
        · subst hu
          simp only [Function.update_same, List.length_cons]
          rw [hcount, hw.levels u]
        · simp only [Function.update_noteq hu]
          rw [holdCount_of_ne hown hu, ← hw.levels u]
          rcases havail with hfree | hmine
          · exact (holdCount_of_free u hfree).symm
          · exact (holdCount_of_ne hmine hu).symm
      · intro o _
        rw [hlevel1]
        omega
  | release t =>
    cases h : w.held t with
    | nil => simpa [World.step, h] using hw
    | cons l ls =>
      have hl : l = { thread := t, owns := true } := hw.handles t l (by simp [h])
      have hlev := hw.levels t
      rw [h, List.length_cons] at hlev
      have hown : w.manager.receive_data_mutex.owner = some t := by
        by_contra hne
        unfold recursive_mutex.holdCount at hlev
        simp [hne] at hlev
      have hlevel : w.manager.receive_data_mutex.level = ls.length + 1 := by
        unfold recursive_mutex.holdCount at hlev
        simpa [hown] using hlev
      simp only [World.step, h]
      refine ⟨?_, ?_, ?_⟩
      · intro u l' hl'
        by_cases hu : u = t
        · subst hu
          simp only [Function.update_same] at hl'
          exact hw.handles u l' (by rw [h]; exact List.mem_cons_of_mem _ hl')
        · simp only [Function.update_noteq hu] at hl'
          exact hw.handles u l' hl'
      · intro u
        subst hl
        simp only [unique_lock.destroy, if_true, recursive_mutex.unlock, hown, hlevel]
        by_cases hu : u = t
        · subst hu
          simp only [Function.update_same]
          by_cases hz : ls.length + 1 ≤ 1
          · have : ls.length = 0 := by omega
            simp [hz, recursive_mutex.holdCount, this]
          · simp [hz, recursive_mutex.holdCount]
        · simp only [Function.update_noteq hu]
          rw [← hw.levels u, holdCount_of_ne hown hu]
          have hne : ¬ (some t = some u) := by
            intro h'
            exact hu (Option.some.inj h').symm
          by_cases hz : ls.length + 1 ≤ 1
          · simp [hz, recursive_mutex.holdCount]
          · simp [hz, recursive_mutex.holdCount, hne]
      · intro o ho
        subst hl
        simp only [unique_lock.destroy, if_true, recursive_mutex.unlock, hown, hlevel] at ho ⊢
        by_cases hz : ls.length + 1 ≤ 1
        · simp [hz] at ho
        · simp only [hz, if_false]
          omega

theorem run_consistent (w : World) (hw : w.Consistent) (ops : List Op) :
    (w.run ops).1.Consistent := by
  induction ops generalizing w with
  | nil => exact hw
  | cons op ops ih =>
    rw [run_cons]
    exact ih _ (step_consistent w hw op)

/-- C2: after any history of operations from program start, a thread that still holds a
handle returned by `getInstance` can call `getInstance` again and the call returns; as long
as it holds at least one handle, a call by any other thread does not return; and once no
other thread holds a handle any more, a call by the thread returns. -/
theorem getInstance_reentrant (ops : List Op) (t : ThreadId) :
    ((World.init.run ops).1.held t ≠ [] →
      (ReceiveDataManager.getInstance t (World.init.run ops).1.manager
        (World.init.run ops).1.constructed).isSome = true ∧
      ∀ u, u ≠ t →
        ReceiveDataManager.getInstance u (World.init.run ops).1.manager
          (World.init.run ops).1.constructed = none) ∧
    ((∀ u, u ≠ t → (World.init.run ops).1.held u = []) →
      (ReceiveDataManager.getInstance t (World.init.run ops).1.manager
        (World.init.run ops).1.constructed).isSome = true) := by
  have hw := run_consistent World.init init_consistent ops
  generalize (World.init.run ops).1 = w at hw
  have isSome_of (u : ThreadId)
      (h : w.manager.receive_data_mutex.owner = none ∨
        w.manager.receive_data_mutex.owner = some u) :
      (ReceiveDataManager.getInstance u w.manager w.constructed).isSome = true :=
    (getInstance_isSome_iff u w.manager w.constructed).2 h
  constructor
  · intro hheld
    have hlen : 0 < (w.held t).length := List.length_pos.2 hheld
    rw [← hw.levels t] at hlen
    have hown : w.manager.receive_data_mutex.owner = some t := by
      by_contra hne
      unfold recursive_mutex.holdCount at hlen
      simp [hne] at hlen
    refine ⟨isSome_of t (Or.inr hown), ?_⟩
    intro u hu
    rw [getInstance_eq_none_iff]
    unfold recursive_mutex.lock
    rw [hown]
    simp [Ne.symm hu]
  · intro hothers
    apply isSome_of
    cases ho : w.manager.receive_data_mutex.owner with
    | none => exact Or.inl rfl
    | some o =>
      right
      by_contra hne
      have hot : o ≠ t := fun h => hne (by rw [h])
      have hlev := hw.levels o
      rw [hothers o hot] at hlev
      have hpos := hw.positive o ho
      unfold recursive_mutex.holdCount at hlev
      simp [ho] at hlev
      omega

end hel

namespace hel

/-! ## The registry: who can obtain a `ReceiveData` -/

/-- The three things an operation can do: hand over nothing, hand over a freshly
constructed object and leave the registry alone, or hand over the pair of a returning
`getInstance` call. -/
theorem step_trichotomy (w : World) (op : Op) :
    ((w.step op).2 = none ∧ (w.step op).1.manager.instance_ = w.manager.instance_ ∧
      (w.step op).1.constructed = w.constructed) ∨
    (op = .construct ∧ (w.step op).2 = some (.object w.constructed) ∧
      (w.step op).1.manager = w.manager ∧ (w.step op).1.constructed = w.constructed + 1) ∨
    (∃ t r, op = .getInstance t ∧
      ReceiveDataManager.getInstance t w.manager w.constructed = some r ∧
      (w.step op).2 = some (.pair r) ∧ (w.step op).1.manager = r.manager ∧
      (w.step op).1.constructed = r.constructed) := by
  cases op with
  | getInstance t =>
    cases h : ReceiveDataManager.getInstance t w.manager w.constructed with
    | none => left; simp [World.step, h]
    | some r =>
      right; right
      exact ⟨t, r, rfl, h, by simp [World.step, h], by simp [World.step, h],
        by simp [World.step, h]⟩
  | release t =>
    left
    cases h : w.held t with
    | nil => simp [World.step, h]
    | cons l ls => simp [World.step, h]
  | construct => right; left; simp [World.step]

theorem run_separates (w : World) (hw : w.InstanceAllocated) (ops : List Op) :
    (w.run ops).1.InstanceAllocated ∧
    w.constructed ≤ (w.run ops).1.constructed ∧
    (∀ o ∈ constructedObjects (w.run ops).2, w.constructed ≤ o) ∧
    (∀ p, (w.run ops).1.manager.instance_ = some p →
      (w.manager.instance_ = some p ∨ (w.manager.instance_ = none ∧ w.constructed ≤ p)) ∧
      p ∉ constructedObjects (w.run ops).2) ∧
    (∀ r ∈ returnedPairs (w.run ops).2, ∀ p, r.first = some p →
      (w.manager.instance_ = some p ∨ (w.manager.instance_ = none ∧ w.constructed ≤ p)) ∧
      p ∉ constructedObjects (w.run ops).2) := by
  induction ops generalizing w with
  | nil =>
    refine ⟨hw, le_refl _, ?_, ?_, ?_⟩
    · intro o ho; simp [run_nil, constructedObjects] at ho
    · intro p hp
      exact ⟨Or.inl hp, by simp [run_nil, constructedObjects]⟩
    · intro r hr; simp [run_nil, returnedPairs] at hr
  | cons op ops ih =>
    rw [run_cons]
    rcases step_trichotomy w op with ⟨hnone, hinst, hcon⟩ | ⟨-, hob, hmgr, hcon⟩ |
      ⟨t, r, -, hget, hob, hmgr, hcon⟩
    · -- nothing handed over
      have hw1 : (w.step op).1.InstanceAllocated := by
        intro p hp
        rw [hinst] at hp
        rw [hcon]
        exact hw p hp
      obtain ⟨i1, i2, i3, i4, i5⟩ := ih (w.step op).1 hw1
      simp only [hnone, constructedObjects, returnedPairs]
      rw [hinst, hcon] at i4 i5
      rw [hcon] at i2 i3
      exact ⟨i1, i2, i3, i4, i5⟩
    · -- a direct constructor call
      have hw1 : (w.step op).1.InstanceAllocated := by
        intro p hp
        rw [hmgr] at hp
        rw [hcon]
        exact Nat.lt_succ_of_lt (hw p hp)
      obtain ⟨i1, i2, i3, i4, i5⟩ := ih (w.step op).1 hw1
      simp only [hob, constructedObjects, returnedPairs]
      rw [hmgr, hcon] at i4 i5
      rw [hcon] at i2 i3
      have sep : ∀ p : Nat, (w.manager.instance_ = some p ∨
          (w.manager.instance_ = none ∧ w.constructed + 1 ≤ p)) → p ≠ w.constructed := by
        intro p hp
        rcases hp with hp | ⟨-, hp⟩
        · exact Nat.ne_of_lt (hw p hp)
        · omega
      refine ⟨i1, by omega, ?_, ?_, ?_⟩
      · intro o ho
        rcases List.mem_cons.1 ho with rfl | ho
        · exact le_refl _
        · exact le_trans (Nat.le_succ _) (i3 o ho)
      · intro p hp
        obtain ⟨a, b⟩ := i4 p hp
        refine ⟨?_, ?_⟩
        · rcases a with a | ⟨a1, a2⟩
          · exact Or.inl a
          · exact Or.inr ⟨a1, by omega⟩
        · simp only [List.mem_cons, not_or]
          exact ⟨sep p a, b⟩
      · intro r hr p hp
        obtain ⟨a, b⟩ := i5 r hr p hp
        refine ⟨?_, ?_⟩
        · rcases a with a | ⟨a1, a2⟩
          · exact Or.inl a
          · exact Or.inr ⟨a1, by omega⟩
        · simp only [List.mem_cons, not_or]
          exact ⟨sep p a, b⟩
    · -- a returning call of getInstance
      obtain ⟨-, -, hfirst, hnone, hsome, -, hmono⟩ :=
        getInstance_some t w.manager w.constructed r hget
      -- the pointer handed over, and where it comes from
      have hr : ∃ q : Nat, r.first = some q ∧ q < r.constructed ∧
          (w.manager.instance_ = some q ∨ (w.manager.instance_ = none ∧ w.constructed ≤ q)) := by
        cases hi : w.manager.instance_ with
        | none =>
          obtain ⟨h1, h2, -⟩ := hnone hi
          exact ⟨w.constructed, h1, by rw [h2]; exact Nat.lt_succ_self _, Or.inr ⟨rfl, le_refl _⟩⟩
        | some q =>
          obtain ⟨h1, h2, -⟩ := hsome q hi
          exact ⟨q, h1, by rw [h2]; exact hw q hi, Or.inl rfl⟩
      obtain ⟨q, hq1, hq2, hq3⟩ := hr
      have hinst1 : (w.step op).1.manager.instance_ = some q := by
        rw [hmgr, ← hfirst, hq1]
      have hw1 : (w.step op).1.InstanceAllocated := by
        intro p hp
        rw [hinst1] at hp
        rw [hcon]
        cases hp
        exact hq2
      obtain ⟨i1, i2, i3, i4, i5⟩ := ih (w.step op).1 hw1
      simp only [hob, constructedObjects, returnedPairs]
      rw [hcon] at i2 i3
      have later : ∀ p, ((w.step op).1.manager.instance_ = some p ∨
          ((w.step op).1.manager.instance_ = none ∧ (w.step op).1.constructed ≤ p)) →
          p = q := by
        intro p hp
        rcases hp with hp | ⟨hp, -⟩
        · rw [hinst1] at hp
          cases hp
          rfl
        · rw [hinst1] at hp
          cases hp
      refine ⟨i1, le_trans hmono i2, ?_, ?_, ?_⟩
      · intro o ho
        exact le_trans hmono (i3 o ho)
      · intro p hp
        obtain ⟨a, b⟩ := i4 p hp
        have := later p a
        subst this
        exact ⟨hq3, b⟩
      · intro r' hr' p hp
        rcases List.mem_cons.1 hr' with rfl | hr'
        · rw [hq1] at hp
          cases hp
          refine ⟨hq3, ?_⟩
          intro hmem
          have := i3 _ hmem
          omega
        · obtain ⟨a, b⟩ := i5 r' hr' p hp
          have := later p a
          subst this
          exact ⟨hq3, b⟩

/-- C6 (as written, refuted): the public constructor `ReceiveData::ReceiveData()` is an
operation of outside code that is not `getInstance` and hands over a `ReceiveData`: at
program start it yields object `0` while the registry's instance stays null. -/
theorem public_constructor_bypasses_registry :
    (World.init.step Op.construct).2 = some (Obtained.object 0) ∧
    (World.init.step Op.construct).1.manager.instance_ = none ∧
    ¬ (∀ (w : World) (op : Op) (x : Obtained),
        (w.step op).2 = some x → ∃ t, op = Op.getInstance t) := by
  refine ⟨rfl, rfl, ?_⟩
  intro h
  obtain ⟨t, ht⟩ := h World.init Op.construct (Obtained.object 0) rfl
  cases ht

/-- C6 (amended): `getInstance` is the sole entry point to the registry's Snapshot. In
every history from program start, a pair is handed over only by a `getInstance` call, no
object built through the public constructor is ever the pointer of a returned pair or the
registry's instance, and a direct constructor call leaves the registry's statics as they
are. -/
theorem getInstance_sole_access_to_shared_instance (ops : List Op) :
    (∀ r ∈ returnedPairs (World.init.run ops).2,
      ∀ o ∈ constructedObjects (World.init.run ops).2, r.first ≠ some o) ∧
    (∀ o ∈ constructedObjects (World.init.run ops).2,
      (World.init.run ops).1.manager.instance_ ≠ some o) ∧
    (∀ (w : World) (op : Op) (r : GetInstanceResult),
      (w.step op).2 = some (Obtained.pair r) → ∃ t, op = Op.getInstance t) ∧
    (∀ w : World, (w.step Op.construct).1.manager = w.manager) := by
  have hinit : World.init.InstanceAllocated := by
    intro p hp
    simp [World.init] at hp
  obtain ⟨-, -, -, h4, h5⟩ := run_separates World.init hinit ops
  refine ⟨?_, ?_, ?_, ?_⟩
  · intro r hr o ho heq
    exact (h5 r hr o heq).2 ho
  · intro o ho heq
    exact (h4 o heq).2 ho
  · intro w op r h
    rcases step_trichotomy w op with ⟨hnone, -, -⟩ | ⟨-, hob, -, -⟩ | ⟨t, r', hop, -, -, -, -⟩
    · rw [hnone] at h; cases h
    · rw [hob] at h; cases h
    · exact ⟨t, hop⟩
  · intro w
    rfl

end hel

namespace hel

/-! ## The registry: how many objects `getInstance` constructs -/

theorem run_constructed_of_instance_some (w : World) (p : ObjectId)
    (hp : w.manager.instance_ = some p) (ops : List Op) :
    (w.run ops).1.constructed = w.constructed + (constructedObjects (w.run ops).2).length := by
  induction ops generalizing w with
  | nil => simp [run_nil, constructedObjects]
  | cons op ops ih =>
    rw [run_cons]
    rcases step_trichotomy w op with ⟨hnone, hinst, hcon⟩ | ⟨-, hob, hmgr, hcon⟩ |
      ⟨t, r, -, hget, hob, hmgr, hcon⟩
    · rw [ih (w.step op).1 (by rw [hinst, hp]), hcon]
      simp only [hnone, constructedObjects]
    · rw [ih (w.step op).1 (by rw [hmgr, hp]), hcon]
      simp only [hob, constructedObjects, List.length_cons]
      omega
    · obtain ⟨-, -, hfirst, -, hsome, -, -⟩ := getInstance_some t w.manager w.constructed r hget
      obtain ⟨h1, h2, -⟩ := hsome p hp
      rw [ih (w.step op).1 (by rw [hmgr, ← hfirst, h1]), hcon, h2]
      simp only [hob, constructedObjects]

theorem run_constructed_of_instance_none (w : World) (hp : w.manager.instance_ = none)
    (ops : List Op) :
    (w.run ops).1.constructed = w.constructed + (constructedObjects (w.run ops).2).length +
      (if returnedPairs (w.run ops).2 = [] then 0 else 1) := by
  induction ops generalizing w with
  | nil => simp [run_nil, constructedObjects, returnedPairs]
  | cons op ops ih =>
    rw [run_cons]
    rcases step_trichotomy w op with ⟨hnone, hinst, hcon⟩ | ⟨-, hob, hmgr, hcon⟩ |
      ⟨t, r, -, hget, hob, hmgr, hcon⟩
    · rw [ih (w.step op).1 (by rw [hinst, hp]), hcon]
      simp only [hnone, constructedObjects, returnedPairs]
    · rw [ih (w.step op).1 (by rw [hmgr, hp]), hcon]
      simp only [hob, constructedObjects, returnedPairs, List.length_cons]
      omega
    · obtain ⟨-, -, hfirst, hnone, -, -, -⟩ := getInstance_some t w.manager w.constructed r hget
      obtain ⟨h1, h2, -⟩ := hnone hp
      rw [run_constructed_of_instance_some (w.step op).1 w.constructed
        (by rw [hmgr, ← hfirst, h1]), hcon, h2]
      simp only [hob, constructedObjects, returnedPairs, reduceCtorEq, if_false]
      omega

/-- C1: in every history of operations from program start (where `instance` is `nullptr`),
the first `getInstance` call returns and is the one that creates the Snapshot, every later
returning call creates nothing and returns the same non-null pointer, and the registry's
instance ends up being that pointer. The Snapshot is a newly constructed object: over the
whole history `getInstance` constructs exactly one `ReceiveData` (none while no call has
returned), and the pointer it hands out is never an object built by a direct constructor
call. A call made while `instance` is null constructs the object with the next fresh
identity and stores it; a call made while `instance` is non-null constructs nothing,
leaves `instance` as it is and returns it. -/
theorem getInstance_creates_once (ops : List Op) :
    ((returnedPairs (World.init.run ops).2 = [] ∧
        (World.init.run ops).1.manager.instance_ = none) ∨
      (∃ r rest, returnedPairs (World.init.run ops).2 = r :: rest ∧
        r.created = true ∧ r.first ≠ none ∧
        (∀ r' ∈ rest, r'.created = false ∧ r'.first = r.first) ∧
        (World.init.run ops).1.manager.instance_ = r.first)) ∧
    ((∃ t, Op.getInstance t ∈ ops) → returnedPairs (World.init.run ops).2 ≠ []) ∧
    (World.init.run ops).1.constructed =
      (constructedObjects (World.init.run ops).2).length +
        (if returnedPairs (World.init.run ops).2 = [] then 0 else 1) ∧
    (∀ r ∈ returnedPairs (World.init.run ops).2,
      ∀ o ∈ constructedObjects (World.init.run ops).2, r.first ≠ some o) ∧
    (∀ (t : ThreadId) (mgr : ReceiveDataManager) (n : Nat) (r : GetInstanceResult),
      mgr.instance_ = none → ReceiveDataManager.getInstance t mgr n = some r →
        r.first = some n ∧ r.manager.instance_ = some n ∧ r.constructed = n + 1 ∧
        r.created = true) ∧
    (∀ (t : ThreadId) (mgr : ReceiveDataManager) (n : Nat) (p : ObjectId)
        (r : GetInstanceResult),
      mgr.instance_ = some p → ReceiveDataManager.getInstance t mgr n = some r →
        r.manager.instance_ = some p ∧ r.first = some p ∧ r.constructed = n ∧
        r.created = false) := by
  have hinit : World.init.InstanceAllocated := by
    intro p hp
    simp [World.init] at hp
  obtain ⟨-, -, -, -, h5⟩ := run_separates World.init hinit ops
  have hcount := run_constructed_of_instance_none World.init rfl ops
  refine ⟨run_of_instance_none World.init rfl ops,
    first_call_returns World.init rfl (fun _ => rfl) ops, ?_, ?_, ?_, ?_⟩
  · rw [hcount]
    simp [World.init]
  · intro r hr o ho heq
    exact (h5 r hr o heq).2 ho
  · intro t mgr n r hp hget
    obtain ⟨-, -, hfirst, hnone, -, -, -⟩ := getInstance_some t mgr n r hget
    obtain ⟨h1, h2, h3⟩ := hnone hp
    exact ⟨h1, by rw [← hfirst, h1], h2, h3⟩
  · intro t mgr n p r hp hget
    obtain ⟨-, -, hfirst, -, hsome, -, -⟩ := getInstance_some t mgr n r hget
    obtain ⟨h1, h2, h3⟩ := hsome p hp
    exact ⟨by rw [← hfirst, h1], h1, h2, h3⟩

theorem getInstance_creates_once_witness :
    (returnedPairs (World.init.run
        [.construct, .getInstance 1, .getInstance 1, .release 1, .release 1, .construct,
         .getInstance 2]).2).map
      (fun r => (r.first, r.created, r.constructed))
        = [(some 1, true, 2), (some 1, false, 2), (some 1, false, 3)] ∧
    constructedObjects (World.init.run
        [.construct, .getInstance 1, .getInstance 1, .release 1, .release 1, .construct,
         .getInstance 2]).2 = [0, 2] ∧
    (World.init.run
        [.construct, .getInstance 1, .getInstance 1, .release 1, .release 1, .construct,
         .getInstance 2]).1.constructed = 2 + 1 ∧
    (∀ r, ReceiveDataManager.getInstance 3
        { instance_ := none, receive_data_mutex := { owner := none, level := 0 } } 4 = some r →
      r.first = some 4 ∧ r.manager.instance_ = some 4 ∧ r.constructed = 4 + 1 ∧
      r.created = true) ∧
    (∀ r, ReceiveDataManager.getInstance 3
        { instance_ := some 0, receive_data_mutex := { owner := none, level := 0 } } 1 = some r →
      r.manager.instance_ = some 0 ∧ r.first = some 0 ∧ r.constructed = 1 ∧
      r.created = false) :=
  ⟨by decide, by decide,
   (getInstance_creates_once
      [.construct, .getInstance 1, .getInstance 1, .release 1, .release 1, .construct,
       .getInstance 2]).2.2.1,
   fun r h => (getInstance_creates_once []).2.2.2.2.1 3 _ 4 r rfl h,
   fun r h => (getInstance_creates_once []).2.2.2.2.2 3 _ 1 0 r rfl h⟩

end hel

namespace hel

/-! ## The snapshot: codings -/

end hel

namespace hel

/-! ## The snapshot: going through the sections of a message -/

end hel

namespace hel

/-! ## The snapshot: decode, encode, update -/

/-- C5: `updateShallow`, `updateDeep` and `toString` leave the snapshot (the six
categories and the last-received cache) exactly as it was, `toString` leaves the mirror
alone as well, and an `updateDeep` made later without a new decode, whatever the mirror
holds by then, publishes the values of the unchanged snapshot again. -/
theorem update_and_toString_keep_snapshot {τ : Types} {ρ : Type} (S : Schema τ)
    (e : Emulator τ ρ) :
    (e.updateShallow S).snapshot = e.snapshot ∧
    e.updateDeep.snapshot = e.snapshot ∧
    (e.toString S).2 = e ∧
    (∀ m : Mirror τ ρ,
      (Emulator.updateDeep { snapshot := e.updateDeep.snapshot, mirror := m }).mirror
        = { e.updateDeep.mirror with other := m.other }) ∧
    e.updateDeep.mirror.digital_hdrs = e.snapshot.digital_hdrs ∧
    e.updateDeep.mirror.digital_mxp = e.snapshot.digital_mxp ∧
    e.updateDeep.mirror.joysticks = e.snapshot.joysticks ∧
    e.updateDeep.mirror.match_info = e.snapshot.match_info ∧
    e.updateDeep.mirror.robot_mode = e.snapshot.robot_mode ∧
    e.updateDeep.mirror.encoder_managers = e.snapshot.encoder_managers :=
  ⟨rfl, rfl, rfl, fun _ => rfl, rfl, rfl, rfl, rfl, rfl, rfl⟩

end hel

namespace nFPGA

open tRioStatusCode

theorem enable_then_disable_restores_witness :
    (tInterruptManager.new 5 false).1._enabled = false ∧
    2 &&& (tInterruptManager.new 5 false).1._interruptMask = 0 ∧
    ((tInterruptManager.new 5 false).1.enable 2).status = NiFpga_Status_Success ∧
    ((tInterruptManager.new 5 false).1.enable 2).globalMask = 7 ∧
    ((((tInterruptManager.new 5 false).1.enable 2).self.disable
        ((tInterruptManager.new 5 false).1.enable 2).globalMask).globalMask = 2) :=
  ⟨rfl, by decide,
   (enable_then_disable_restores 2 (tInterruptManager.new 5 false).1
      (by decide) (by decide) rfl (by decide)).1,
   (enable_then_disable_restores 2 (tInterruptManager.new 5 false).1
      (by decide) (by decide) rfl (by decide)).2.2.1,
   (enable_then_disable_restores 2 (tInterruptManager.new 5 false).1
      (by decide) (by decide) rfl (by decide)).2.2.2.2.2.1⟩

end nFPGA

namespace hel

theorem getInstance_reentrant_witness :
    (World.init.run [.getInstance 1, .getInstance 1, .release 1]).1.held 1 ≠ [] ∧
    (ReceiveDataManager.getInstance 1
      (World.init.run [.getInstance 1, .getInstance 1, .release 1]).1.manager
      (World.init.run [.getInstance 1, .getInstance 1, .release 1]).1.constructed).isSome
        = true ∧
    ReceiveDataManager.getInstance 2
      (World.init.run [.getInstance 1, .getInstance 1, .release 1]).1.manager
      (World.init.run [.getInstance 1, .getInstance 1, .release 1]).1.constructed = none ∧
    (ReceiveDataManager.getInstance 2
      (World.init.run [.getInstance 1, .getInstance 1, .release 1, .release 1]).1.manager
      (World.init.run [.getInstance 1, .getInstance 1, .release 1, .release 1]).1.constructed
      ).isSome = true :=
  ⟨by decide,
   ((getInstance_reentrant [.getInstance 1, .getInstance 1, .release 1] 1).1 (by decide)).1,
   ((getInstance_reentrant [.getInstance 1, .getInstance 1, .release 1] 1).1 (by decide)).2 2
     (by decide),
   (getInstance_reentrant [.getInstance 1, .getInstance 1, .release 1, .release 1] 2).2
     (by
       intro u hu
       by_cases h1 : u = 1
       · subst h1; rfl
       · simp [World.run, World.step, World.init, ReceiveDataManager.getInstance,
           recursive_mutex.lock, Function.update, h1])⟩

theorem getInstance_sole_access_to_shared_instance_witness :
    constructedObjects (World.init.run [.construct, .getInstance 1, .construct]).2 = [0, 2] ∧
    (returnedPairs (World.init.run [.construct, .getInstance 1, .construct]).2).map
      (fun r => r.first) = [some 1] ∧
    (World.init.run [.construct, .getInstance 1, .construct]).1.manager.instance_ ≠ some 2 ∧
    (World.init.run [.construct, .getInstance 1, .construct]).1.manager.instance_ ≠ some 0 :=
  ⟨by decide, by decide,
   (getInstance_sole_access_to_shared_instance
      [.construct, .getInstance 1, .construct]).2.1 2 (by decide),
   (getInstance_sole_access_to_shared_instance
      [.construct, .getInstance 1, .construct]).2.1 0 (by decide)⟩

end hel
